import Mathlib

/-!
# IoTLogBlock: the originator of the four-message handshake

A shallow embedding of `ContikiNG/IoTLogBlock/chain-originator.c`: the receive callback
`udp_rx_callback`, the protothread `chain_client_process` and the record buffer, followed by
the properties of the handshake, the record buffer and the digest word-order transform.

Machine integers are natural numbers reduced modulo the width of their C type at every
increment. Everything the environment decides during one run of a handler (the random
number generator, the timers, the signing hardware) is an argument of that handler.
-/

namespace IoTLogBlock

/-! ## Constants and the `REV` transform -/

/-- Capacity of the record buffer: `#define MAX_TXS 30`. -/
def MAX_TXS : Nat := 30

/-- A value stored in a `uint16_t`. -/
def u16 (n : Nat) : Nat := n % 2 ^ 16

/-- A value stored in a `uint32_t`. -/
def u32 (n : Nat) : Nat := n % 2 ^ 32

/-- The macro `REV(X)` on a `uint32_t` operand:
`((X << 24) | ((X & 0xff00) << 8) | ((X >> 8) & 0xff00) | (X >> 24))`,
every left shift reduced modulo `2 ^ 32`. -/
def REV (X : Nat) : Nat :=
  u32 (u32 (X <<< 24) ||| u32 ((X &&& 0xff00) <<< 8) ||| ((X >>> 8) &&& 0xff00) ||| (X >>> 24))

/-- The loop `for (i = 0; i < 8; i++) { out[i] = REV(ptr[j]); j--; }` with `j` starting
at 7, so that `j = 7 - i` throughout. -/
def ByteSwap (ptr : List Nat) : List Nat :=
  (List.range 8).map (fun i => REV (ptr.getD (7 - i) 0))

/-- The bytes of a list of `uint32_t` words as `memcmp` sees them on the little-endian
target. -/
def word_bytes (ws : List Nat) : List Nat :=
  (ws.map (fun w => [w % 256, w / 256 % 256, w / 65536 % 256, w / 16777216 % 256])).flatten

/-- The two bytes of a 16-bit field on the little-endian target. -/
def short_bytes (n : Nat) : List Nat := [n % 256, n / 256 % 256]

/-! ## Message shapes -/

/-- Modelled from the spec: `Offchain-message.h` is not among the sources. The tags are the
six message kinds of the spec's `MessageHeader`; a tag received from the network that is
none of them is `undefined`. -/
inductive msg_type where
  | MSG_TYPE_HELLO
  | MSG_TYPE_READY
  | MSG_TYPE_M1
  | MSG_TYPE_M2
  | MSG_TYPE_M3
  | MSG_TYPE_M4
  | undefined (tag : Nat)
  deriving DecidableEq, Repr

/-- Modelled from the spec: the `status` enumeration of `Offchain-message.h`, which is not
among the sources. -/
inductive rec_status where
  | STATUS_COMPLETE
  | STATUS_ABORT
  | STATUS_RESOLVE
  deriving DecidableEq, Repr

/-- An IPv6 address, `uip_ipaddr_t`, as its 16 bytes. -/
abbrev uip_ipaddr_t := List Nat

/-- Modelled from the spec: `struct msg_contex`, with the fields the source assigns. -/
structure msg_contex where
  originator_id : Nat
  responder_id : Nat
  smart_contract_id : Nat
  record_id : Nat
  hash_nonce_o : List Nat
  deriving DecidableEq, Repr

/-- Modelled from the spec: `msg_m1`, with the fields the source assigns. -/
structure msg_m1 where
  type : msg_type
  context : msg_contex
  point_r : List Nat
  signature_o : List Nat
  deriving DecidableEq, Repr

/-- Modelled from the spec: `msg_m2`. The source copies it from a `msg_header *`, so the
tag comes first. -/
structure msg_m2 where
  type : msg_type
  hash_nonce_r : List Nat
  signature_r : List Nat
  deriving DecidableEq, Repr

/-- Modelled from the spec: `msg_m3`, a tag and a 16-bit nonce. -/
structure msg_m3 where
  type : msg_type
  nonce : Nat
  deriving DecidableEq, Repr

/-- Modelled from the spec: `msg_record`, with the fields the source reads and writes. -/
structure msg_record where
  m1 : msg_m1
  m2 : msg_m2
  nonce_o : Nat
  nonce_r : Nat
  rec_counter : Nat
  status : rec_status
  deriving DecidableEq, Repr

/-- What the handlers read behind a `msg_header *`: the `type` field, the `nonce` field
reached through the `(msg_m4 *)` cast, and the two arrays that the `sizeof(msg_m2)` copy
takes from that address. -/
structure msg_view where
  type : msg_type
  nonce : Nat
  hash_nonce_r : List Nat
  signature_r : List Nat
  deriving DecidableEq, Repr

/-- Modelled from the spec: the size in bytes of the shape a tag names (spec sections 3
and 6), with a one-byte tag and natural alignment: HELLO and READY are a header, M3 and M4
a header and a 16-bit nonce, M2 a header, an 8-word digest and 8 signature words, M1 a
header, four 32-bit identifiers, an 8-word digest, a 24-word point and a 24-word
signature. An undefined tag names no shape. -/
def shape_size : msg_type → Nat
  | .MSG_TYPE_HELLO => 1
  | .MSG_TYPE_READY => 1
  | .MSG_TYPE_M1 => 244
  | .MSG_TYPE_M2 => 68
  | .MSG_TYPE_M3 => 4
  | .MSG_TYPE_M4 => 4
  | .undefined _ => 0

/-! ## Program state -/

/-- Where the protothread `chain_client_process` resumes when it is next scheduled. -/
inductive resume_point where
  | start
  | wait_event
  | sign
  deriving DecidableEq, Repr

/-- The event identifiers the process thread distinguishes. -/
inductive process_event where
  | PROCESS_EVENT_INIT
  | PROCESS_EVENT_POLL
  | PROCESS_EVENT_MSG
  | PROCESS_EVENT_TIMER
  deriving DecidableEq, Repr

/-- The file-level statics, the statics of the process thread, its resume point and the
number of `PROCESS_EVENT_MSG` events posted and not yet delivered (each of them carries the
address of `msg_buffer`). Slots of `buffer` at index `MAX_TXS` and above lie outside the C
array. -/
structure State where
  memory_max : Nat
  droped_rec : Nat
  tx_free : Bool
  record_counter : Nat
  buffer_counter : Nat
  buffer : Nat → msg_record
  msg_buffer : msg_view
  complete_rec : msg_record
  dest_iot_node : uip_ipaddr_t
  count : Nat
  reply_m1 : msg_m1
  reply_m3 : msg_m3
  nonce : Nat
  sign_hash : List Nat
  resume : resume_point
  posted : Nat

/-- The build flags that select the optional sub-protocols. -/
structure Config where
  ABORT_SUB_PROTOCOL : Bool
  RESOLVE_PROTOCOL : Bool
  deriving DecidableEq, Repr

/-- The file defines neither flag. -/
def default_build : Config := ⟨false, false⟩

/-- The digest engine of `dev/sha256.h`, as the words a `uint32_t *` reads from the digest:
on the two bytes of a nonce and on a handshake context. -/
structure Sha256 where
  of_nonce : Nat → List Nat
  of_context : msg_contex → List Nat

/-- The outcome of `ecc_dsa_sign` once it has finished. -/
structure sign_result where
  point_r : List Nat
  signature_s : List Nat
  deriving DecidableEq, Repr

/-- What the environment decides during one scheduling of the process thread: the value of
`random_rand()`, which timers have expired, whether the signing thread has finished, and
the 30 bytes that follow the field `complete_rec.nonce_r` in memory. -/
structure Sched where
  random_rand : Nat
  periodic_hello_expired : Bool
  edge_connection_expired : Bool
  abord_period_expired : Bool
  resolve_period_expired : Bool
  sign_done : Option sign_result
  after_nonce_r : List Nat

/-- A datagram handed to `simple_udp_sendto`, with its destination. -/
inductive sent_msg where
  | hello (dest : uip_ipaddr_t)
  | m1 (dest : uip_ipaddr_t) (m : msg_m1)
  | m3 (dest : uip_ipaddr_t) (m : msg_m3)
  deriving DecidableEq, Repr

/-- What one scheduling of the process thread emits: the datagrams sent, the records
printed to the upload feed, and the verdict of the nonce check when an M4 was handled
(`true` for "NonceR hash OK"). -/
structure Effects where
  sent : List sent_msg
  feed : List msg_record
  nonce_ok : Option Bool
  deriving DecidableEq, Repr

/-- No effect. -/
def silent : Effects := ⟨[], [], none⟩

/-! ## The receive callback -/

set_option linter.unusedVariables false in
/-- The function `udp_rx_callback`. `data` is the datagram as the casts read it, `datalen`
its length. `sizeof(msg_rcv)` in the M2 and M4 cases is the size of a pointer, so only a
prefix of the datagram reaches `msg_buffer`, itself a `msg_header`: the tag is copied, and
how the storage behind it reads afterwards is the argument `behind`. -/
def udp_rx_callback (s : State) (sender_addr : uip_ipaddr_t) (data : msg_view)
    (datalen : Nat) (behind : msg_view) : State :=
  match data.type with
  | .MSG_TYPE_READY =>
    if s.tx_free = true then
      { s with
        dest_iot_node := sender_addr
        msg_buffer := { s.msg_buffer with type := data.type }
        posted := s.posted + 1
        tx_free := false }
    else s
  | .MSG_TYPE_M2 =>
    { s with msg_buffer := { behind with type := data.type }, posted := s.posted + 1 }
  | .MSG_TYPE_M4 =>
    { s with msg_buffer := { behind with type := data.type }, posted := s.posted + 1 }
  | _ => s

/-! ## The process thread -/

/-- The statement `buffer[i] = r`. -/
def store (buffer : Nat → msg_record) (i : Nat) (r : msg_record) : Nat → msg_record :=
  fun k => if k = i then r else buffer k

/-- The `PT_SPAWN` of `ecc_dsa_sign` and the code after it: while the signing thread has
not finished the process thread stays blocked in the spawn; once it has, the signature is
copied into `reply_m1`, `reply_m1` and the nonce into `complete_rec`, and M1 is sent. -/
def spawn_sign (s : State) (o : Sched) : State × Effects :=
  match o.sign_done with
  | none => ({ s with resume := .sign }, silent)
  | some r =>
    let reply_m1 : msg_m1 :=
      { s.reply_m1 with point_r := r.point_r, signature_o := r.signature_s }
    ({ s with
        reply_m1 := reply_m1
        complete_rec := { s.complete_rec with m1 := reply_m1, nonce_o := s.nonce }
        resume := .wait_event },
      { silent with sent := [.m1 s.dest_iot_node reply_m1] })

/-- The branch `msg_rcv->type == MSG_TYPE_READY`. -/
def on_ready (sha : Sha256) (s : State) (o : Sched) : State × Effects :=
  let nonce := u16 o.random_rand
  let context : msg_contex :=
    { originator_id := 1
      responder_id := 2
      smart_contract_id := 3
      record_id := 4
      hash_nonce_o := ByteSwap (sha.of_nonce nonce) }
  spawn_sign
    { s with
      record_counter := u32 (s.record_counter + 1)
      reply_m1 := { s.reply_m1 with type := .MSG_TYPE_M1, context := context }
      nonce := nonce
      sign_hash := ByteSwap (sha.of_context context) } o

/-- The branch `msg_rcv->type == MSG_TYPE_M2`. -/
def on_m2 (s : State) (data : msg_view) : State × Effects :=
  let reply_m3 : msg_m3 := { type := .MSG_TYPE_M3, nonce := s.nonce }
  ({ s with
      complete_rec :=
        { s.complete_rec with
          m2 := { type := data.type
                  hash_nonce_r := data.hash_nonce_r
                  signature_r := data.signature_r } }
      reply_m3 := reply_m3 },
    { silent with sent := [.m3 s.dest_iot_node reply_m3] })

/-- The test `rom_util_memcmp(sha256_digest, &complete_rec.nonce_r, sizeof(sha256)) == 0`:
the 32 bytes of the digest against the 32 bytes that start at the field `nonce_r`. -/
def nonce_check (digest : List Nat) (complete_rec : msg_record) (after_nonce_r : List Nat) :
    Bool :=
  decide (word_bytes digest = (short_bytes complete_rec.nonce_r ++ after_nonce_r).take 32)

/-- The append of `complete_rec`: `if (buffer_counter < MAX_TXS) { ... } else { ... }`. -/
def append_complete_rec (s : State) : State :=
  if s.buffer_counter < MAX_TXS then
    { s with
      buffer := store s.buffer s.buffer_counter s.complete_rec
      buffer_counter := u32 (s.buffer_counter + 1) }
  else
    { s with droped_rec := u16 (s.droped_rec + 1) }

/-- The statement `if (buffer_counter > memory_max) memory_max = buffer_counter;`. -/
def track_memory_max (s : State) : State :=
  if s.buffer_counter > s.memory_max then { s with memory_max := s.buffer_counter } else s

/-- The branch `msg_rcv->type == MSG_TYPE_M4`. -/
def on_m4 (sha : Sha256) (s : State) (data : msg_view) (o : Sched) : State × Effects :=
  let sha256_digest := ByteSwap (sha.of_nonce data.nonce)
  let ok := nonce_check sha256_digest s.complete_rec o.after_nonce_r
  (track_memory_max (append_complete_rec
      { s with
        tx_free := true
        complete_rec :=
          { s.complete_rec with
            nonce_r := data.nonce
            status := .STATUS_COMPLETE
            rec_counter := s.record_counter } }),
    { silent with nonce_ok := some ok })

/-- The block `if (etimer_expired(&periodic_hello))`. -/
def hello_tick (s : State) (o : Sched) : State :=
  if o.periodic_hello_expired = true then { s with count := u32 (s.count + 1) } else s

/-- The datagram sent by the block `if (etimer_expired(&periodic_hello))`. -/
def hello_sent (s : State) (o : Sched) : List sent_msg :=
  if o.periodic_hello_expired = true then [.hello s.dest_iot_node] else []

/-- The records printed by the block `if (etimer_expired(&edge_connection))`: the loop
`for (transmit_record = 0; transmit_record < buffer_counter; transmit_record++)`. -/
def upload_feed (s : State) (o : Sched) : List msg_record :=
  if o.edge_connection_expired = true ∧ s.buffer_counter > 0 then
    (List.range s.buffer_counter).map (fun transmit_record => s.buffer transmit_record)
  else []

/-- The state after the block `if (etimer_expired(&edge_connection))`. -/
def upload_reset (s : State) (o : Sched) : State :=
  if o.edge_connection_expired = true ∧ s.buffer_counter > 0 then
    { s with buffer_counter := 0 }
  else s

/-- The block under `#ifdef ABORT_SUB_PROTOCOL` of the timer branch. -/
def abort_tick (cfg : Config) (s : State) (o : Sched) : State :=
  if cfg.ABORT_SUB_PROTOCOL = true ∧ o.abord_period_expired = true then
    let complete_rec := { s.complete_rec with status := .STATUS_ABORT }
    { s with
      complete_rec := complete_rec
      buffer := store s.buffer s.buffer_counter complete_rec
      buffer_counter := u32 (s.buffer_counter + 1)
      tx_free := true }
  else s

/-- The block under `#ifdef RESOLVE_PROTOCOL` of the timer branch. -/
def resolve_tick (cfg : Config) (s : State) (o : Sched) : State :=
  if cfg.RESOLVE_PROTOCOL = true ∧ o.resolve_period_expired = true then
    let complete_rec := { s.complete_rec with status := .STATUS_RESOLVE }
    { s with
      complete_rec := complete_rec
      buffer := store s.buffer s.buffer_counter complete_rec
      buffer_counter := u32 (s.buffer_counter + 1)
      tx_free := true }
  else s

/-- The branch `ev == PROCESS_EVENT_TIMER`. -/
def on_timer (cfg : Config) (s : State) (o : Sched) : State × Effects :=
  (resolve_tick cfg (abort_tick cfg (upload_reset (hello_tick s o) o) o) o,
    { silent with sent := hello_sent s o, feed := upload_feed (hello_tick s o) o })

/-- One scheduling of `PROCESS_THREAD(chain_client_process, ev, data)`. The assignment
`tx_free = true` stands before `PROCESS_BEGIN()`, so it runs each time the thread is
scheduled; the thread then continues from its resume point: the start of the body, the
`PROCESS_WAIT_EVENT()` of the loop, or the `PT_SPAWN` of the signing thread. -/
def process_thread (cfg : Config) (sha : Sha256) (s : State) (ev : process_event)
    (data : msg_view) (o : Sched) : State × Effects :=
  let s : State := { s with tx_free := true }
  match s.resume with
  | .start => ({ s with resume := .wait_event }, silent)
  | .sign => spawn_sign s o
  | .wait_event =>
    match ev with
    | .PROCESS_EVENT_MSG =>
      match data.type with
      | .MSG_TYPE_READY => on_ready sha s o
      | .MSG_TYPE_M2 => on_m2 s data
      | .MSG_TYPE_M4 => on_m4 sha s data o
      | _ => (s, silent)
    | .PROCESS_EVENT_TIMER => on_timer cfg s o
    | _ => (s, silent)

/-! ## The scheduler -/

/-- What can happen to the device: a datagram arrives, a posted message event is delivered
to the process thread, a timer event is delivered, or another event (the start of the
process, a poll from the signing hardware) is delivered. -/
inductive Input where
  | rx (sender_addr : uip_ipaddr_t) (data : msg_view) (datalen : Nat) (behind : msg_view)
  | msg (o : Sched)
  | timer (o : Sched)
  | poll (o : Sched)

/-- One step of the device. The callback is registered by the first scheduling of the
process thread, and a message event is delivered only when one has been posted; its data
is the address of `msg_buffer`. -/
def step (cfg : Config) (sha : Sha256) (s : State) : Input → State × Effects
  | .rx sender_addr data datalen behind =>
    if s.resume = .start then (s, silent)
    else (udp_rx_callback s sender_addr data datalen behind, silent)
  | .msg o =>
    if 0 < s.posted then
      process_thread cfg sha { s with posted := s.posted - 1 } .PROCESS_EVENT_MSG
        s.msg_buffer o
    else (s, silent)
  | .timer o => process_thread cfg sha s .PROCESS_EVENT_TIMER s.msg_buffer o
  | .poll o => process_thread cfg sha s .PROCESS_EVENT_POLL s.msg_buffer o

/-- The state after a sequence of steps. -/
def run (cfg : Config) (sha : Sha256) (s : State) : List Input → State
  | [] => s
  | i :: is => run cfg sha (step cfg sha s i).1 is

/-- A zero-initialised `msg_m1`; the all-zero tag of static storage is read as the first
enumerator. -/
def zero_m1 : msg_m1 :=
  ⟨.MSG_TYPE_HELLO, ⟨0, 0, 0, 0, List.replicate 8 0⟩, List.replicate 24 0, List.replicate 24 0⟩

/-- A zero-initialised `msg_record`. -/
def zero_record : msg_record :=
  ⟨zero_m1, ⟨.MSG_TYPE_HELLO, List.replicate 8 0, List.replicate 8 0⟩, 0, 0, 0,
    .STATUS_COMPLETE⟩

/-- The state before the process is started: the initialisers of the statics. -/
def boot : State :=
  { memory_max := 0
    droped_rec := 0
    tx_free := true
    record_counter := 0
    buffer_counter := 0
    buffer := fun _ => zero_record
    msg_buffer := ⟨.MSG_TYPE_HELLO, 0, List.replicate 8 0, List.replicate 8 0⟩
    complete_rec := zero_record
    dest_iot_node := [0xff, 0x02, 0, 0, 0, 0, 0, 0, 0, 0, 0, 0, 0, 0, 0, 0x01]
    count := 0
    reply_m1 := zero_m1
    reply_m3 := ⟨.MSG_TYPE_HELLO, 0⟩
    nonce := 0
    sign_hash := List.replicate 8 0
    resume := .start
    posted := 0 }

/-! ## Notions used in the statements -/

/-- The record the M4 branch completes in the state `s` from the message `data`: the
in-progress record with `nonce_r`, `status` and `rec_counter` assigned. -/
def completed (s : State) (data : msg_view) : msg_record :=
  { s.complete_rec with
    nonce_r := data.nonce, status := .STATUS_COMPLETE, rec_counter := s.record_counter }

/-- Whether a per-transaction guard timer that the build includes has expired. In the
build of the source there is none. -/
def guard_expired (cfg : Config) (o : Sched) : Bool :=
  (cfg.ABORT_SUB_PROTOCOL && o.abord_period_expired) ||
    (cfg.RESOLVE_PROTOCOL && o.resolve_period_expired)

/-- Successive schedulings of the process thread, with the datagrams they send. -/
def thread_runs (cfg : Config) (sha : Sha256) (s : State) :
    List (process_event × msg_view × Sched) → State × List sent_msg
  | [] => (s, [])
  | (ev, data, o) :: rest =>
    ((thread_runs cfg sha (process_thread cfg sha s ev data o).1 rest).1,
      (process_thread cfg sha s ev data o).2.sent ++
        (thread_runs cfg sha (process_thread cfg sha s ev data o).1 rest).2)

/-- The state in which the thread blocks in the spawn after the READY branch has drawn the
nonce `u16 r`. -/
def signing (sha : Sha256) (s : State) (r : Nat) : State :=
  { s with
    tx_free := true
    record_counter := u32 (s.record_counter + 1)
    reply_m1 :=
      { s.reply_m1 with
        type := .MSG_TYPE_M1
        context := ⟨1, 2, 3, 4, ByteSwap (sha.of_nonce (u16 r))⟩ }
    nonce := u16 r
    sign_hash := ByteSwap (sha.of_context ⟨1, 2, 3, 4, ByteSwap (sha.of_nonce (u16 r))⟩)
    resume := .sign }

/-- The state after the signing thread has finished with `sig` in the state `s`. -/
def signed (s : State) (sig : sign_result) : State :=
  { s with
    tx_free := true
    reply_m1 := { s.reply_m1 with point_r := sig.point_r, signature_o := sig.signature_s }
    complete_rec :=
      { s.complete_rec with
        m1 := { s.reply_m1 with point_r := sig.point_r, signature_o := sig.signature_s }
        nonce_o := s.nonce }
    resume := .wait_event }

/-- The destination of a datagram. -/
def dest_of : sent_msg → uip_ipaddr_t
  | .hello dest => dest
  | .m1 dest _ => dest
  | .m3 dest _ => dest

/-- The thread waits in its event loop with no event posted, the device is free and the
buffer is full. -/
def full_and_free (s : State) : Prop :=
  s.resume = .wait_event ∧ s.buffer_counter = MAX_TXS ∧ s.tx_free = true ∧ s.posted = 0

/-- Each conjunct of `full_and_free` is decidable. -/
instance full_and_free_decidable (s : State) : Decidable (full_and_free s) := by
  unfold full_and_free
  infer_instance

/-! ## Concrete inputs -/

/-- A scheduling in which no timer has expired, the signing thread has not finished, and
the memory behind `complete_rec.nonce_r` is zero. -/
def quiet : Sched := ⟨0, false, false, false, false, none, List.replicate 30 0⟩

/-- A scheduling in which `random_rand()` returns `r`. -/
def draw (r : Nat) : Sched := { quiet with random_rand := r }

/-- The outcome of the signing thread in the evaluations. -/
def sig_fix : sign_result := ⟨List.replicate 24 1, List.replicate 24 2⟩

/-- A scheduling in which the signing thread finishes. -/
def sign_ends : Sched := { quiet with sign_done := some sig_fix }

/-- A scheduling in which only the upload timer has expired. -/
def upload_due : Sched := { quiet with edge_connection_expired := true }

/-- A scheduling in which only the abort deadline has expired. -/
def abort_due : Sched := { quiet with abord_period_expired := true }

/-- A scheduling in which only the resolve deadline has expired. -/
def resolve_due : Sched := { quiet with resolve_period_expired := true }

/-- A digest engine for the evaluations: the SHA-256 digests of the two bytes of the nonces
0x1234, 0x4321 and 9, as little-endian words. Its other values play no part. -/
def sha_fix : Sha256 :=
  { of_nonce := fun n =>
      if n = 0x1234 then
        [0x440e4de7, 0xcdff58a6, 0x6672eec0, 0x4171d1eb, 0x18cf8f3b, 0x72a2972c, 0x8af4d954,
          0x6662eaba]
      else if n = 0x4321 then
        [0xb9cc2a99, 0xb5fe7e91, 0xf8bc3768, 0x2dd84f19, 0xbe321aa1, 0x6bde50e1, 0xbb03f59c,
          0x57730f9c]
      else if n = 9 then
        [0xd1aec4a2, 0xd97c75cf, 0x4a7309a5, 0x7bfc7f26, 0x5fb56611, 0x3e9c8f4c, 0x6ec55035,
          0xfc283374]
      else List.replicate 8 0
    of_context := fun _ => List.replicate 8 0 }

/-- A READY datagram. -/
def ready_view : msg_view := ⟨.MSG_TYPE_READY, 0, List.replicate 8 0, List.replicate 8 0⟩

/-- An M2 datagram carrying the digest `h`. -/
def m2_of (h : List Nat) : msg_view := ⟨.MSG_TYPE_M2, 0, h, List.replicate 8 0⟩

/-- An M4 datagram carrying the nonce `R`. -/
def m4_of (R : Nat) : msg_view := ⟨.MSG_TYPE_M4, R, List.replicate 8 0, List.replicate 8 0⟩

/-- The address of a first peer. -/
def peer_a : uip_ipaddr_t := [0xfe, 0x80, 0, 0, 0, 0, 0, 0, 0, 0, 0, 0, 0, 0, 0, 0x0a]

/-- The address of a second peer. -/
def peer_b : uip_ipaddr_t := [0xfe, 0x80, 0, 0, 0, 0, 0, 0, 0, 0, 0, 0, 0, 0, 0, 0x0b]

/-- The inputs of one handshake with `peer`, up to the sending of M1: the READY arrives,
its event is handled and draws the nonce `r`, and the signing thread finishes at the next
scheduling. -/
def opening (peer : uip_ipaddr_t) (r : Nat) : List Input :=
  [.rx peer ready_view 1 ready_view, .msg (draw r), .poll sign_ends]

/-- The inputs of one complete handshake with `peer`: the opening, an M2 carrying the
byte-swapped digest of `R`, and an M4 carrying `R`; both datagrams are taken to reach
`msg_buffer` whole. -/
def handshake (peer : uip_ipaddr_t) (r R : Nat) : List Input :=
  opening peer r ++
    [.rx peer (m2_of (ByteSwap (sha_fix.of_nonce R))) 68 (m2_of (ByteSwap (sha_fix.of_nonce R))),
      .msg quiet, .rx peer (m4_of R) 4 (m4_of R), .msg quiet]

/-- The start of the process followed by thirty complete handshakes. -/
def thirty_handshakes : List Input :=
  .poll quiet :: (List.replicate 30 (handshake peer_a 0x1234 9)).flatten

/-- A state with two records stored. -/
def two_stored : State := { boot with resume := .wait_event, buffer_counter := 2 }

/-- A state with a full buffer and three records dropped so far. -/
def full_3 : State :=
  { boot with resume := .wait_event, buffer_counter := 30, droped_rec := 3 }

/-- The device after thirty complete handshakes have filled the buffer and 65535 further
ones have each been dropped. -/
def drops_saturated : State :=
  run default_build sha_fix boot
    (thirty_handshakes ++ (List.replicate 65535 (handshake peer_a 0x1234 9)).flatten)

/-- The device after the first READY, from `peer_a`, has been accepted and its event
handled: the thread is blocked in the spawn of the signing thread. -/
def first_session : State :=
  run default_build sha_fix boot
    [.poll quiet, .rx peer_a ready_view 1 ready_view, .msg (draw 0x1234)]

/-- The device at the end of a first handshake, with the M4 event posted: the M2 of the
peer carried the byte-swapped digest of the nonce 9, and the M4 carries the nonce 9. -/
def m4_posted : State :=
  run default_build sha_fix boot
    (.poll quiet :: opening peer_a 0x1234 ++
      [.rx peer_a (m2_of (ByteSwap (sha_fix.of_nonce 9))) 68
          (m2_of (ByteSwap (sha_fix.of_nonce 9))),
        .msg quiet, .rx peer_a (m4_of 9) 4 (m4_of 9)])

/-! ## The word-order transform -/

theorem and_ff00 (x : Nat) : x &&& 0xff00 = (x / 256 % 256) * 256 := by
  apply Nat.eq_of_testBit_eq
  intro i
  have h1 : (0xff00 : Nat) = (2 ^ 8 - 1) <<< 8 := by decide
  have h2 : (x / 256 % 256) * 256 = ((x >>> 8) % 2 ^ 8) <<< 8 := by
    rw [Nat.shiftLeft_eq, Nat.shiftRight_eq_div_pow]; norm_num
  rw [h2, h1]
  simp only [Nat.testBit_and, Nat.testBit_shiftLeft, Nat.testBit_two_pow_sub_one,
    Nat.testBit_mod_two_pow, Nat.testBit_shiftRight]
  by_cases h : 8 ≤ i
  · have : 8 + (i - 8) = i := by omega
    simp [h, this, Bool.and_comm]
  · simp [h]

theorem REV_eq (x : Nat) (hx : x < 2 ^ 32) :
    REV x = (x % 256) * 2 ^ 24 + (x / 256 % 256) * 2 ^ 16 + (x / 65536 % 256) * 2 ^ 8
      + x / 2 ^ 24 := by
  unfold REV u32
  rw [and_ff00, and_ff00, Nat.shiftLeft_eq, Nat.shiftLeft_eq, Nat.shiftRight_eq_div_pow,
    Nat.shiftRight_eq_div_pow]
  have e1 : x * 2 ^ 24 % 2 ^ 32 = 2 ^ 24 * (x % 256) := by omega
  have e2 : x / 256 % 256 * 256 * 2 ^ 8 % 2 ^ 32 = x / 256 % 256 * 2 ^ 16 := by omega
  have e3 : x / 2 ^ 8 / 256 % 256 * 256 = x / 65536 % 256 * 2 ^ 8 := by omega
  rw [e1, e2, e3]
  have a1 : 2 ^ 24 * (x % 256) ||| x / 256 % 256 * 2 ^ 16
      = 2 ^ 16 * (2 ^ 8 * (x % 256) + x / 256 % 256) := by
    rw [← Nat.mul_add_lt_is_or (by omega)]; omega
  have a2 : 2 ^ 16 * (2 ^ 8 * (x % 256) + x / 256 % 256) ||| x / 65536 % 256 * 2 ^ 8
      = 2 ^ 8 * (2 ^ 8 * (2 ^ 8 * (x % 256) + x / 256 % 256) + x / 65536 % 256) := by
    rw [← Nat.mul_add_lt_is_or (by omega)]; omega
  rw [a1, a2, ← Nat.mul_add_lt_is_or (by omega)]
  omega

theorem bytes_of_sum (a b c d : Nat) (hb : b < 256) (hc : c < 256) (hd : d < 256) :
    (a * 2 ^ 24 + b * 2 ^ 16 + c * 2 ^ 8 + d) % 256 = d ∧
    (a * 2 ^ 24 + b * 2 ^ 16 + c * 2 ^ 8 + d) / 256 % 256 = c ∧
    (a * 2 ^ 24 + b * 2 ^ 16 + c * 2 ^ 8 + d) / 65536 % 256 = b ∧
    (a * 2 ^ 24 + b * 2 ^ 16 + c * 2 ^ 8 + d) / 2 ^ 24 = a := by
  refine ⟨?_, ?_, ?_, ?_⟩ <;> omega

theorem REV_lt (x : Nat) : REV x < 2 ^ 32 := by
  unfold REV u32; exact Nat.mod_lt _ (by norm_num)

theorem REV_REV (x : Nat) (hx : x < 2 ^ 32) : REV (REV x) = x := by
  have hd : x / 2 ^ 24 < 256 := by omega
  obtain ⟨k0, k1, k2, k3⟩ := bytes_of_sum (x % 256) (x / 256 % 256) (x / 65536 % 256)
    (x / 2 ^ 24) (Nat.mod_lt _ (by norm_num)) (Nat.mod_lt _ (by norm_num)) hd
  rw [REV_eq _ (REV_lt x), REV_eq x hx, k0, k1, k2, k3]
  clear k0 k1 k2 k3 hd
  omega

theorem REV_bytes (x : Nat) (hx : x < 2 ^ 32) (k : Nat) (hk : k < 4) :
    REV x / 256 ^ k % 256 = x / 256 ^ (3 - k) % 256 := by
  have hd : x / 2 ^ 24 < 256 := by omega
  obtain ⟨k0, k1, k2, k3⟩ := bytes_of_sum (x % 256) (x / 256 % 256) (x / 65536 % 256)
    (x / 2 ^ 24) (Nat.mod_lt _ (by norm_num)) (Nat.mod_lt _ (by norm_num)) hd
  rw [REV_eq x hx]
  interval_cases k
  · simp only [pow_zero, Nat.div_one, Nat.reduceSub]
    rw [k0]; omega
  · simp only [pow_one, Nat.reduceSub]
    rw [k1]; omega
  · simp only [Nat.reducePow, Nat.reduceSub, pow_one] at k2 ⊢
    rw [k2]
  · simp only [Nat.reducePow, Nat.reduceSub, pow_zero, Nat.div_one] at k3 ⊢
    rw [k3]; omega

theorem ByteSwap_ByteSwap (d : List Nat) (hlen : d.length = 8) (hw : ∀ w ∈ d, w < 2 ^ 32) :
    ByteSwap (ByteSwap d) = d := by
  match d, hlen with
  | [a, b, c, e, f, g, h, i], _ =>
    simp only [List.mem_cons, List.mem_singleton, forall_eq_or_imp, forall_eq, List.not_mem_nil,
      IsEmpty.forall_iff, implies_true, and_true] at hw
    obtain ⟨h0, h1, h2, h3, h4, h5, h6, h7⟩ := hw
    simp [ByteSwap, List.range, List.range.loop, REV_REV _ h0, REV_REV _ h1, REV_REV _ h2,
      REV_REV _ h3, REV_REV _ h4, REV_REV _ h5, REV_REV _ h6, REV_REV _ h7]

/-- Claim C9: the digest word-order transform is its own inverse. For every digest `d` of
eight 32-bit words `ByteSwap (ByteSwap d) = d`, where `ByteSwap d` holds `REV (d[7 - i])`
at index `i`; for every 32-bit `x`, `REV (REV x) = x`, and byte `k` of `REV x` is byte
`3 - k` of `x`. -/
theorem C9_ByteSwap_involutive (d : List Nat) (hlen : d.length = 8)
    (hw : ∀ w ∈ d, w < 2 ^ 32) (x : Nat) (hx : x < 2 ^ 32) :
    ByteSwap (ByteSwap d) = d ∧
    (∀ i, i < 8 → (ByteSwap d).getD i 0 = REV (d.getD (7 - i) 0)) ∧
    REV (REV x) = x ∧
    (∀ k, k < 4 → REV x / 256 ^ k % 256 = x / 256 ^ (3 - k) % 256) := by
  refine ⟨ByteSwap_ByteSwap d hlen hw, ?_, REV_REV x hx, fun k hk => REV_bytes x hx k hk⟩
  intro i hi
  unfold ByteSwap
  interval_cases i <;> rfl

/-- Claim C9, at the digest `1, 2, ..., 8` and the word `0x11223344`. -/
theorem C9_ByteSwap_involutive_witness :
    [1, 2, 3, 4, 5, 6, 7, 8].length = 8 ∧ (∀ w ∈ [1, 2, 3, 4, 5, 6, 7, 8], w < 2 ^ 32) ∧
    0x11223344 < 2 ^ 32 ∧
    ByteSwap (ByteSwap [1, 2, 3, 4, 5, 6, 7, 8]) = [1, 2, 3, 4, 5, 6, 7, 8] ∧
    REV (REV 0x11223344) = 0x11223344 :=
  ⟨rfl, by decide, by decide,
    (C9_ByteSwap_involutive [1, 2, 3, 4, 5, 6, 7, 8] rfl (by decide) 0x11223344
      (by decide)).1,
    (C9_ByteSwap_involutive [1, 2, 3, 4, 5, 6, 7, 8] rfl (by decide) 0x11223344
      (by decide)).2.2.1⟩

/-! ## The record buffer -/

theorem track_memory_max_fields (s : State) :
    (track_memory_max s).buffer = s.buffer ∧
    (track_memory_max s).buffer_counter = s.buffer_counter ∧
    (track_memory_max s).droped_rec = s.droped_rec ∧
    (track_memory_max s).tx_free = s.tx_free ∧
    (track_memory_max s).complete_rec = s.complete_rec := by
  unfold track_memory_max
  split <;> simp

theorem on_m4_room (sha : Sha256) (s : State) (data : msg_view) (o : Sched)
    (h : s.buffer_counter < MAX_TXS) :
    (on_m4 sha s data o).1.buffer = store s.buffer s.buffer_counter (completed s data) ∧
    (on_m4 sha s data o).1.buffer_counter = s.buffer_counter + 1 ∧
    (on_m4 sha s data o).1.droped_rec = s.droped_rec := by
  have hb : s.buffer_counter + 1 < 4294967296 := by unfold MAX_TXS at h; omega
  simp [on_m4, track_memory_max_fields, append_complete_rec, h, completed, u32,
    Nat.mod_eq_of_lt hb]

theorem on_m4_full (sha : Sha256) (s : State) (data : msg_view) (o : Sched)
    (h : ¬ s.buffer_counter < MAX_TXS) :
    (on_m4 sha s data o).1.buffer = s.buffer ∧
    (on_m4 sha s data o).1.buffer_counter = s.buffer_counter ∧
    (on_m4 sha s data o).1.droped_rec = u16 (s.droped_rec + 1) := by
  simp [on_m4, track_memory_max_fields, append_complete_rec, h]

theorem on_m4_session (sha : Sha256) (s : State) (data : msg_view) (o : Sched) :
    (on_m4 sha s data o).1.tx_free = true ∧
    (on_m4 sha s data o).1.complete_rec = completed s data := by
  simp only [on_m4, track_memory_max_fields, append_complete_rec, completed]
  split <;> simp

theorem on_m4_resume (sha : Sha256) (s : State) (data : msg_view) (o : Sched) :
    (on_m4 sha s data o).1.resume = s.resume := by
  simp only [on_m4, track_memory_max, append_complete_rec]
  split <;> split <;> simp

theorem run_append (cfg : Config) (sha : Sha256) :
    ∀ (xs ys : List Input) (s : State),
      run cfg sha s (xs ++ ys) = run cfg sha (run cfg sha s xs) ys
  | [], _, _ => rfl
  | x :: xs, ys, s => by
    simp only [List.cons_append, run]
    exact run_append cfg sha xs ys _

theorem handshake_on_full (s : State) (h : full_and_free s) :
    full_and_free (run default_build sha_fix s (handshake peer_a 0x1234 9)) ∧
    (run default_build sha_fix s (handshake peer_a 0x1234 9)).droped_rec
      = u16 (s.droped_rec + 1) := by
  obtain ⟨h1, h2, h3, h4⟩ := h
  cases s
  simp only at h1 h2 h3 h4
  subst h1 h2 h3 h4
  simp [full_and_free, handshake, opening, run, step, udp_rx_callback, process_thread, on_ready,
    spawn_sign, on_m2, on_m4, append_complete_rec, track_memory_max, ready_view, m2_of, m4_of,
    draw, quiet, sign_ends, MAX_TXS]
  split <;> simp

theorem handshakes_on_full :
    ∀ (n : Nat) (s : State), full_and_free s → s.droped_rec < 2 ^ 16 →
      full_and_free (run default_build sha_fix s
        (List.replicate n (handshake peer_a 0x1234 9)).flatten) ∧
      (run default_build sha_fix s
        (List.replicate n (handshake peer_a 0x1234 9)).flatten).droped_rec
        = u16 (s.droped_rec + n)
  | 0, s, h, hd => by
    refine ⟨by simpa [run] using h, ?_⟩
    simp only [List.replicate_zero, List.flatten_nil, run, u16, Nat.add_zero]
    exact (Nat.mod_eq_of_lt hd).symm
  | n + 1, s, h, hd => by
    obtain ⟨k1, k2⟩ := handshake_on_full s h
    have hd2 : (run default_build sha_fix s (handshake peer_a 0x1234 9)).droped_rec < 2 ^ 16 := by
      rw [k2]; exact Nat.mod_lt _ (by norm_num)
    obtain ⟨j1, j2⟩ := handshakes_on_full n _ k1 hd2
    simp only [List.replicate_succ, List.flatten_cons, run_append]
    refine ⟨j1, ?_⟩
    rw [j2, k2]
    unfold u16
    omega

set_option maxRecDepth 1000000 in
theorem thirty_handshakes_fill :
    full_and_free (run default_build sha_fix boot thirty_handshakes) ∧
    (run default_build sha_fix boot thirty_handshakes).droped_rec = 0 := by
  unfold full_and_free
  decide

theorem drops_saturated_fields :
    drops_saturated.resume = .wait_event ∧ drops_saturated.buffer_counter = MAX_TXS ∧
    drops_saturated.droped_rec = 65535 := by
  obtain ⟨h1, h2⟩ := thirty_handshakes_fill
  obtain ⟨k1, k2⟩ := handshakes_on_full 65535 _ h1 (by rw [h2]; norm_num)
  unfold drops_saturated
  rw [run_append]
  refine ⟨k1.1, k1.2.1, ?_⟩
  rw [k2, h2]
  rfl

/-- Claim C3, refuted as stated: in the state reached by thirty complete handshakes followed
by 65535 dropped ones the buffer is full and the drop counter holds 65535, and
completing one more handshake leaves the drop counter at 0, not one larger. -/
theorem C3_drop_counter_wraps :
    drops_saturated.buffer_counter = MAX_TXS ∧
    drops_saturated.droped_rec = 65535 ∧
    (on_m4 sha_fix drops_saturated (m4_of 9) quiet).1.droped_rec = 0 ∧
    (on_m4 sha_fix drops_saturated (m4_of 9) quiet).1.droped_rec
      ≠ drops_saturated.droped_rec + 1 := by
  obtain ⟨_, h2, h3⟩ := drops_saturated_fields
  have hn : ¬ drops_saturated.buffer_counter < MAX_TXS := by omega
  obtain ⟨_, _, k⟩ := on_m4_full sha_fix drops_saturated (m4_of 9) quiet hn
  have h0 : (on_m4 sha_fix drops_saturated (m4_of 9) quiet).1.droped_rec = 0 := by
    rw [k, h3]; rfl
  refine ⟨h2, h3, h0, ?_⟩
  rw [h0, h3]
  decide

/-- Claim C3, amended: with the buffer full, completing a handshake leaves `buffer_counter`
at `MAX_TXS` and advances the drop counter by one modulo `2 ^ 16`: exactly one larger
below 65535, and 0 after 65535. -/
theorem C3_full_append_counts_drop (sha : Sha256) (s : State) (data : msg_view) (o : Sched)
    (hfull : s.buffer_counter = MAX_TXS) :
    (on_m4 sha s data o).1.buffer_counter = MAX_TXS ∧
    (on_m4 sha s data o).1.droped_rec = (s.droped_rec + 1) % 2 ^ 16 ∧
    (s.droped_rec < 65535 → (on_m4 sha s data o).1.droped_rec = s.droped_rec + 1) ∧
    (s.droped_rec = 65535 → (on_m4 sha s data o).1.droped_rec = 0) := by
  have hn : ¬ s.buffer_counter < MAX_TXS := by omega
  obtain ⟨_, h2, h3⟩ := on_m4_full sha s data o hn
  refine ⟨by rw [h2, hfull], by rw [h3]; rfl, ?_, ?_⟩
  · intro hlt
    rw [h3]; unfold u16; omega
  · intro heq
    rw [h3, heq]; rfl

/-- Claim C3, amended, at a full buffer with three drops counted. -/
theorem C3_full_append_counts_drop_witness :
    full_3.buffer_counter = MAX_TXS ∧ full_3.droped_rec < 65535 ∧
    (on_m4 sha_fix full_3 (m4_of 9) quiet).1.buffer_counter = MAX_TXS ∧
    (on_m4 sha_fix full_3 (m4_of 9) quiet).1.droped_rec = 3 + 1 :=
  ⟨rfl, by decide,
    (C3_full_append_counts_drop sha_fix full_3 (m4_of 9) quiet rfl).1,
    (C3_full_append_counts_drop sha_fix full_3 (m4_of 9) quiet rfl).2.2.1 (by decide)⟩

/-- Claim C4: completing a handshake never evicts or alters a stored record. Every slot
below the old `buffer_counter` holds the same record afterwards; when the buffer is not
full the completed record is stored at index `buffer_counter`, every other slot is
unchanged and the length grows by exactly 1; when it is full the buffer and its length are
unchanged, so the completed record is discarded. -/
theorem C4_append_keeps_stored_records (sha : Sha256) (s : State) (data : msg_view)
    (o : Sched) :
    (∀ i, i < s.buffer_counter → (on_m4 sha s data o).1.buffer i = s.buffer i) ∧
    (s.buffer_counter < MAX_TXS →
      (on_m4 sha s data o).1.buffer s.buffer_counter = completed s data ∧
      (∀ i, i ≠ s.buffer_counter → (on_m4 sha s data o).1.buffer i = s.buffer i) ∧
      (on_m4 sha s data o).1.buffer_counter = s.buffer_counter + 1) ∧
    (s.buffer_counter = MAX_TXS →
      (on_m4 sha s data o).1.buffer = s.buffer ∧
      (on_m4 sha s data o).1.buffer_counter = MAX_TXS) := by
  refine ⟨?_, ?_, ?_⟩
  · intro i hi
    by_cases h : s.buffer_counter < MAX_TXS
    · rw [(on_m4_room sha s data o h).1]
      simp [store, Nat.ne_of_lt hi]
    · rw [(on_m4_full sha s data o h).1]
  · intro h
    obtain ⟨h1, h2, _⟩ := on_m4_room sha s data o h
    refine ⟨by rw [h1]; simp [store], ?_, h2⟩
    intro i hi
    rw [h1]; simp [store, hi]
  · intro h
    have hn : ¬ s.buffer_counter < MAX_TXS := by omega
    obtain ⟨h1, h2, _⟩ := on_m4_full sha s data o hn
    exact ⟨h1, by rw [h2, h]⟩

/-- Claim C4, at a buffer holding two records and at a full buffer. -/
theorem C4_append_keeps_stored_records_witness :
    two_stored.buffer_counter < MAX_TXS ∧
    (on_m4 sha_fix two_stored (m4_of 9) quiet).1.buffer 2 = completed two_stored (m4_of 9) ∧
    (on_m4 sha_fix two_stored (m4_of 9) quiet).1.buffer_counter = 3 ∧
    full_3.buffer_counter = MAX_TXS ∧
    (on_m4 sha_fix full_3 (m4_of 9) quiet).1.buffer = full_3.buffer :=
  ⟨by decide,
    ((C4_append_keeps_stored_records sha_fix two_stored (m4_of 9) quiet).2.1 (by decide)).1,
    ((C4_append_keeps_stored_records sha_fix two_stored (m4_of 9) quiet).2.1
      (by decide)).2.2,
    rfl,
    ((C4_append_keeps_stored_records sha_fix full_3 (m4_of 9) quiet).2.2 rfl).1⟩

/-! ## The upload timer -/

theorem guards_idle (cfg : Config) (s : State) (o : Sched) (h : guard_expired cfg o = false) :
    resolve_tick cfg (abort_tick cfg s o) o = s := by
  simp only [guard_expired, Bool.or_eq_false_iff, Bool.and_eq_false_iff] at h
  have ha : ¬ (cfg.ABORT_SUB_PROTOCOL = true ∧ o.abord_period_expired = true) := by
    rintro ⟨h1, h2⟩; rcases h.1 with h3 | h3 <;> simp_all
  have hr : ¬ (cfg.RESOLVE_PROTOCOL = true ∧ o.resolve_period_expired = true) := by
    rintro ⟨h1, h2⟩; rcases h.2 with h3 | h3 <;> simp_all
  simp [resolve_tick, abort_tick, ha, hr]

theorem hello_tick_buffer (s : State) (o : Sched) :
    (hello_tick s o).buffer = s.buffer ∧ (hello_tick s o).buffer_counter = s.buffer_counter := by
  unfold hello_tick; split <;> simp

theorem timer_at_wait (cfg : Config) (sha : Sha256) (s : State) (o : Sched)
    (hres : s.resume = .wait_event) :
    step cfg sha s (.timer o) = on_timer cfg { s with tx_free := true } o := by
  simp [step, process_thread, hres]

theorem upload_at_wait (cfg : Config) (sha : Sha256) (s : State) (o : Sched)
    (hres : s.resume = .wait_event) (hexp : o.edge_connection_expired = true)
    (hguard : guard_expired cfg o = false) :
    (step cfg sha s (.timer o)).1.buffer_counter = 0 ∧
    (step cfg sha s (.timer o)).1.resume = .wait_event ∧
    (step cfg sha s (.timer o)).2.feed = (List.range s.buffer_counter).map s.buffer := by
  rw [timer_at_wait cfg sha s o hres]
  simp only [on_timer, guards_idle cfg _ o hguard, silent]
  by_cases h0 : s.buffer_counter = 0
  · simp [upload_reset, upload_feed, hello_tick, h0, hres]
    split <;> simp [h0, hres]
  · have hpos : 0 < s.buffer_counter := Nat.pos_of_ne_zero h0
    simp only [upload_reset, upload_feed, hexp, (hello_tick_buffer _ o).1,
      (hello_tick_buffer _ o).2, hpos, gt_iff_lt, and_self, if_true]
    simp [hello_tick]
    split <;> simp [hres]

/-- Claim C5: drain empties the buffer. When the upload timer fires while the thread waits
in its event loop, whatever the buffer holds, the records handed to the upload are exactly
the `buffer_counter` records stored, in index order, and the buffer length is 0 afterwards;
a second firing with no append in between hands over an empty sequence and leaves the
length 0. -/
theorem C5_drain_empties_buffer (cfg : Config) (sha : Sha256) (s : State) (o o2 : Sched)
    (hres : s.resume = .wait_event)
    (hexp : o.edge_connection_expired = true) (hguard : guard_expired cfg o = false)
    (hexp2 : o2.edge_connection_expired = true) (hguard2 : guard_expired cfg o2 = false) :
    (step cfg sha s (.timer o)).2.feed = (List.range s.buffer_counter).map s.buffer ∧
    (step cfg sha s (.timer o)).1.buffer_counter = 0 ∧
    (step cfg sha (step cfg sha s (.timer o)).1 (.timer o2)).2.feed = [] ∧
    (step cfg sha (step cfg sha s (.timer o)).1 (.timer o2)).1.buffer_counter = 0 := by
  obtain ⟨h1, h2, h3⟩ := upload_at_wait cfg sha s o hres hexp hguard
  obtain ⟨k1, _, k3⟩ := upload_at_wait cfg sha _ o2 h2 hexp2 hguard2
  refine ⟨h3, h1, ?_, k1⟩
  rw [k3, h1]; rfl

/-- Claim C5, at a buffer holding two records, in the build of the source. -/
theorem C5_drain_empties_buffer_witness :
    two_stored.resume = .wait_event ∧ upload_due.edge_connection_expired = true ∧
    guard_expired default_build upload_due = false ∧
    (step default_build sha_fix two_stored (.timer upload_due)).2.feed
      = [two_stored.buffer 0, two_stored.buffer 1] ∧
    (step default_build sha_fix two_stored (.timer upload_due)).1.buffer_counter = 0 :=
  ⟨rfl, rfl, rfl,
    (C5_drain_empties_buffer default_build sha_fix two_stored upload_due upload_due
      rfl rfl rfl rfl rfl).1,
    (C5_drain_empties_buffer default_build sha_fix two_stored upload_due upload_due
      rfl rfl rfl rfl rfl).2.1⟩

/-! ## The handshake -/

theorem sign_suspended (cfg : Config) (sha : Sha256) (s : State) (ev : process_event)
    (data : msg_view) (o : Sched) (hres : s.resume = .sign) (hsig : o.sign_done = none) :
    process_thread cfg sha s ev data o = ({ s with tx_free := true }, silent) := by
  cases s
  simp_all [process_thread, spawn_sign]

theorem sign_finished (cfg : Config) (sha : Sha256) (s : State) (ev : process_event)
    (data : msg_view) (o : Sched) (sig : sign_result) (hres : s.resume = .sign)
    (hsig : o.sign_done = some sig) :
    process_thread cfg sha s ev data o =
      (signed s sig, { silent with sent := [.m1 s.dest_iot_node (signed s sig).reply_m1] }) := by
  cases s
  simp_all [process_thread, spawn_sign, signed]

theorem ready_at_wait (cfg : Config) (sha : Sha256) (s : State) (data : msg_view) (o : Sched)
    (hres : s.resume = .wait_event) (hty : data.type = .MSG_TYPE_READY) :
    (o.sign_done = none →
      process_thread cfg sha s .PROCESS_EVENT_MSG data o
        = (signing sha s o.random_rand, silent)) ∧
    (∀ sig, o.sign_done = some sig →
      process_thread cfg sha s .PROCESS_EVENT_MSG data o
        = (signed (signing sha s o.random_rand) sig,
            { silent with
              sent := [.m1 s.dest_iot_node (signed (signing sha s o.random_rand) sig).reply_m1] })) := by
  cases s
  constructor
  · intro h
    simp_all [process_thread, on_ready, spawn_sign, signing]
  · intro sig h
    simp_all [process_thread, on_ready, spawn_sign, signing, signed]

theorem suspended_runs (cfg : Config) (sha : Sha256) (sig : sign_result) :
    ∀ (polls : List (process_event × msg_view × Sched)) (s : State),
      s.resume = .sign → s.tx_free = true →
      polls.map (fun p => p.2.2.sign_done) = List.replicate (polls.length - 1) none ++ [some sig] →
      thread_runs cfg sha s polls = (signed s sig, [.m1 s.dest_iot_node (signed s sig).reply_m1])
  | [], s, _, _, h => by simp at h
  | [(ev, data, o)], s, hres, _, h => by
    have hs : o.sign_done = some sig := by simpa using h
    simp [thread_runs, sign_finished cfg sha s ev data o sig hres hs, silent]
  | (ev, data, o) :: p :: rest, s, hres, htx, h => by
    have hs : o.sign_done = none := by
      simp [List.replicate_succ] at h
      exact h.1
    have ht : List.map (fun p => p.2.2.sign_done) (p :: rest)
        = List.replicate ((p :: rest).length - 1) none ++ [some sig] := by
      simp [List.replicate_succ] at h ⊢
      exact h.2
    have hsame : ({ s with tx_free := true } : State) = s := by
      cases s; simp_all
    have ih := suspended_runs cfg sha sig (p :: rest) s hres htx ht
    simp only [thread_runs, sign_suspended cfg sha s ev data o hres hs, hsame, silent,
      List.nil_append]
    exact ih

theorem session_start (cfg : Config) (sha : Sha256) (s : State) (ready : msg_view)
    (o1 : Sched) (polls : List (process_event × msg_view × Sched)) (sig : sign_result)
    (hres : s.resume = .wait_event) (hready : ready.type = .MSG_TYPE_READY)
    (hsign : (o1 :: polls.map (fun p => p.2.2)).map Sched.sign_done
      = List.replicate polls.length none ++ [some sig]) :
    thread_runs cfg sha s ((.PROCESS_EVENT_MSG, ready, o1) :: polls)
      = (signed (signing sha s o1.random_rand) sig,
          [.m1 s.dest_iot_node (signed (signing sha s o1.random_rand) sig).reply_m1]) := by
  obtain ⟨hnone, hsome⟩ := ready_at_wait cfg sha s ready o1 hres hready
  cases polls with
  | nil =>
    have hs : o1.sign_done = some sig := by simpa using hsign
    simp [thread_runs, hsome sig hs, silent]
  | cons p rest =>
    have hs : o1.sign_done = none := by
      simp [List.replicate_succ] at hsign
      exact hsign.1
    have ht : List.map (fun p => p.2.2.sign_done) (p :: rest)
        = List.replicate ((p :: rest).length - 1) none ++ [some sig] := by
      simp [List.replicate_succ] at hsign ⊢
      exact hsign.2
    have ih := suspended_runs cfg sha sig (p :: rest) (signing sha s o1.random_rand) rfl rfl ht
    simp only [thread_runs, hnone hs, silent, List.nil_append]
    exact ih

/-- Claim C6: completion on M4. From any state in which the thread waits in its event loop
with room in the buffer, let a READY event be handled, drawing the nonce `n`, and let the
signing thread finish with `sig`, at once or after any number of schedulings during which
it is suspended, so that M1 is sent; let an M2 event and then an M4 event carrying the
nonce `R` be handled. Then M1 carried the byte-swapped digest of `n`, M3 carried `n`, and
handling the M4 appended exactly one record, at index `buffer_counter`, whose status is
COMPLETE, whose `nonce_o` is `n` and whose `nonce_r` is `R`; no record was dropped and
`tx_free` is true again. Nothing here depends on the digests, so it holds whether or not
the nonce check succeeds. -/
theorem C6_m4_completes_record (cfg : Config) (sha : Sha256) (s : State)
    (ready m2 m4 : msg_view) (o1 o3 o4 : Sched)
    (polls : List (process_event × msg_view × Sched)) (sig : sign_result)
    (hres : s.resume = .wait_event) (hroom : s.buffer_counter < MAX_TXS)
    (hready : ready.type = .MSG_TYPE_READY) (hm2 : m2.type = .MSG_TYPE_M2)
    (hm4 : m4.type = .MSG_TYPE_M4)
    (hsign : (o1 :: polls.map (fun p => p.2.2)).map Sched.sign_done
      = List.replicate polls.length none ++ [some sig]) :
    let n := u16 o1.random_rand
    let started := thread_runs cfg sha s ((.PROCESS_EVENT_MSG, ready, o1) :: polls)
    let r3 := process_thread cfg sha started.1 .PROCESS_EVENT_MSG m2 o3
    let r4 := process_thread cfg sha r3.1 .PROCESS_EVENT_MSG m4 o4
    (∃ m, started.2 = [.m1 s.dest_iot_node m] ∧
      m.context.hash_nonce_o = ByteSwap (sha.of_nonce n) ∧
      (r4.1.buffer s.buffer_counter).m1 = m) ∧
    r3.2.sent = [.m3 s.dest_iot_node ⟨.MSG_TYPE_M3, n⟩] ∧
    r4.1.buffer_counter = s.buffer_counter + 1 ∧
    (∀ i, i ≠ s.buffer_counter → r4.1.buffer i = s.buffer i) ∧
    (r4.1.buffer s.buffer_counter).status = .STATUS_COMPLETE ∧
    (r4.1.buffer s.buffer_counter).nonce_o = n ∧
    (r4.1.buffer s.buffer_counter).nonce_r = m4.nonce ∧
    r4.1.droped_rec = s.droped_rec ∧
    r4.1.tx_free = true ∧
    r4.1.resume = .wait_event := by
  intro n started r3 r4
  have hst : started = _ := session_start cfg sha s ready o1 polls sig hres hready hsign
  have h3 : r3 = on_m2 { started.1 with tx_free := true } m2 := by
    simp only [r3, hst]
    simp [process_thread, signed, hm2]
  have hroom3 : r3.1.buffer_counter < MAX_TXS := by
    rw [h3, hst]; simpa [on_m2, signed, signing] using hroom
  have h4 : r4 = on_m4 sha { r3.1 with tx_free := true } m4 o4 := by
    simp only [r4, h3, hst]
    simp [process_thread, on_m2, signed, hm4]
  obtain ⟨hb, hc, hd⟩ := on_m4_room sha { r3.1 with tx_free := true } m4 o4 hroom3
  obtain ⟨ht, _⟩ := on_m4_session sha { r3.1 with tx_free := true } m4 o4
  have hbc : r3.1.buffer_counter = s.buffer_counter := by
    rw [h3, hst]; simp [on_m2, signed, signing]
  have hbuf : r3.1.buffer = s.buffer := by
    rw [h3, hst]; simp [on_m2, signed, signing]
  refine ⟨⟨_, by rw [hst], ?_, ?_⟩, ?_, ?_, ?_, ?_, ?_, ?_, ?_, ?_, ?_⟩
  · simp [signed, signing, n]
  · rw [h4, hb]
    simp [store, completed, h3, hst, on_m2, signed, signing]
  · rw [h3, hst]; simp [on_m2, signed, signing, silent, n]
  · rw [h4, hc]; simpa using hbc
  · intro i hi
    rw [h4, hb]
    simp only [hbc, hbuf, store, hi, if_false]
  · rw [h4, hb]; simp [store, completed, hbc]
  · rw [h4, hb]; simp [store, completed, h3, hst, on_m2, signed, signing, n]
  · rw [h4, hb]; simp [store, completed, hbc]
  · rw [h4, hd, h3, hst]; simp [on_m2, signed, signing]
  · rw [h4]; exact ht
  · rw [h4, on_m4_resume, h3, hst]; simp [on_m2, signed]

/-- Claim C6, at a buffer holding two records: the nonce drawn is 0x1234, the signing
thread finishes at the second scheduling, and the M4 carries the nonce 9. -/
theorem C6_m4_completes_record_witness :
    two_stored.resume = .wait_event ∧ two_stored.buffer_counter < MAX_TXS ∧
    ((draw 0x1234) :: [(process_event.PROCESS_EVENT_POLL, ready_view, sign_ends)].map
        (fun p => p.2.2)).map Sched.sign_done
      = List.replicate 1 none ++ [some sig_fix] ∧
    (process_thread default_build sha_fix
      (process_thread default_build sha_fix
        (thread_runs default_build sha_fix two_stored
          [(.PROCESS_EVENT_MSG, ready_view, draw 0x1234),
            (.PROCESS_EVENT_POLL, ready_view, sign_ends)]).1
        .PROCESS_EVENT_MSG (m2_of (List.replicate 8 5)) quiet).1
      .PROCESS_EVENT_MSG (m4_of 9) quiet).1.buffer_counter = 2 + 1 :=
  ⟨rfl, by decide, rfl,
    (C6_m4_completes_record default_build sha_fix two_stored ready_view
      (m2_of (List.replicate 8 5)) (m4_of 9) (draw 0x1234) quiet quiet
      [(.PROCESS_EVENT_POLL, ready_view, sign_ends)] sig_fix rfl (by decide) rfl rfl rfl
      rfl).2.2.1⟩

/-- Claim C7, refuted as stated: on the idle device (process started, no READY accepted) a
received M4 is delivered and appends a record with status COMPLETE, and a received M2 is
delivered and answered with an M3. -/
theorem C7_idle_m4_and_m2_are_processed :
    (run default_build sha_fix boot [.poll quiet]).tx_free = true ∧
    (run default_build sha_fix boot [.poll quiet]).buffer_counter = 0 ∧
    (run default_build sha_fix boot
      [.poll quiet, .rx peer_a (m4_of 9) 4 (m4_of 9), .msg quiet]).buffer_counter = 1 ∧
    ((run default_build sha_fix boot
      [.poll quiet, .rx peer_a (m4_of 9) 4 (m4_of 9), .msg quiet]).buffer 0).status
        = .STATUS_COMPLETE ∧
    (step default_build sha_fix
      (run default_build sha_fix boot
        [.poll quiet, .rx peer_a (m2_of (List.replicate 8 5)) 68 (m2_of (List.replicate 8 5))])
      (.msg quiet)).2.sent = [.m3 boot.dest_iot_node ⟨.MSG_TYPE_M3, 0⟩] ∧
    (step default_build sha_fix
      (run default_build sha_fix boot
        [.poll quiet, .rx peer_a (m2_of (List.replicate 8 5)) 68 (m2_of (List.replicate 8 5))])
      (.msg quiet)).1.complete_rec.m2.hash_nonce_r = List.replicate 8 5 := by
  decide

/-- Claim C7, amended: the code keeps no record of the expected next step. The callback
posts an event for every M2 and every M4, whatever the state, and ignores only a datagram
whose type is none of READY, M2 and M4, and a READY while `tx_free` is false. Whenever the
thread waits in its event loop, an M2 event stores its body in the in-progress record and
is answered with an M3 carrying the current nonce, and an M4 event sets `tx_free`, marks
the in-progress record COMPLETE with the received nonce and appends it, or counts a drop
when the buffer is full. -/
theorem C7_m2_and_m4_processed_in_any_state (cfg : Config) (sha : Sha256) (s : State)
    (sender_addr : uip_ipaddr_t) (data behind : msg_view) (datalen : Nat) (o : Sched) :
    (data.type = .MSG_TYPE_M2 ∨ data.type = .MSG_TYPE_M4 →
      (udp_rx_callback s sender_addr data datalen behind).posted = s.posted + 1 ∧
      (udp_rx_callback s sender_addr data datalen behind).msg_buffer.type = data.type) ∧
    (data.type ≠ .MSG_TYPE_READY → data.type ≠ .MSG_TYPE_M2 → data.type ≠ .MSG_TYPE_M4 →
      udp_rx_callback s sender_addr data datalen behind = s) ∧
    (data.type = .MSG_TYPE_READY → s.tx_free = false →
      udp_rx_callback s sender_addr data datalen behind = s) ∧
    (s.resume = .wait_event → data.type = .MSG_TYPE_M2 →
      (process_thread cfg sha s .PROCESS_EVENT_MSG data o).2.sent
        = [.m3 s.dest_iot_node ⟨.MSG_TYPE_M3, s.nonce⟩] ∧
      (process_thread cfg sha s .PROCESS_EVENT_MSG data o).1.complete_rec.m2
        = ⟨data.type, data.hash_nonce_r, data.signature_r⟩) ∧
    (s.resume = .wait_event → data.type = .MSG_TYPE_M4 →
      (process_thread cfg sha s .PROCESS_EVENT_MSG data o).1.tx_free = true ∧
      (process_thread cfg sha s .PROCESS_EVENT_MSG data o).1.complete_rec
        = completed s data ∧
      (s.buffer_counter < MAX_TXS →
        (process_thread cfg sha s .PROCESS_EVENT_MSG data o).1.buffer s.buffer_counter
          = completed s data ∧
        (process_thread cfg sha s .PROCESS_EVENT_MSG data o).1.buffer_counter
          = s.buffer_counter + 1) ∧
      (¬ s.buffer_counter < MAX_TXS →
        (process_thread cfg sha s .PROCESS_EVENT_MSG data o).1.buffer = s.buffer ∧
        (process_thread cfg sha s .PROCESS_EVENT_MSG data o).1.droped_rec
          = u16 (s.droped_rec + 1))) := by
  refine ⟨?_, ?_, ?_, ?_, ?_⟩
  · rintro (h | h) <;> simp [udp_rx_callback, h]
  · intro h1 h2 h3
    unfold udp_rx_callback
    split <;> simp_all
  · intro h1 h2
    simp [udp_rx_callback, h1, h2]
  · intro hres hty
    simp [process_thread, hres, hty, on_m2, silent]
  · intro hres hty
    have h4 : process_thread cfg sha s .PROCESS_EVENT_MSG data o
        = on_m4 sha { s with tx_free := true } data o := by
      simp [process_thread, hres, hty]
    rw [h4]
    refine ⟨(on_m4_session sha _ data o).1, (on_m4_session sha _ data o).2, ?_, ?_⟩
    · intro hlt
      obtain ⟨hb, hc, _⟩ := on_m4_room sha { s with tx_free := true } data o hlt
      exact ⟨by rw [hb]; simp [store, completed], hc⟩
    · intro hge
      obtain ⟨hb, _, hd⟩ := on_m4_full sha { s with tx_free := true } data o hge
      exact ⟨hb, hd⟩

/-- Claim C7, amended, at a device that waits in its event loop with two records
stored: an M4 event appends a third. -/
theorem C7_m2_and_m4_processed_in_any_state_witness :
    two_stored.resume = .wait_event ∧ (m4_of 9).type = .MSG_TYPE_M4 ∧
    two_stored.buffer_counter < MAX_TXS ∧
    (process_thread default_build sha_fix two_stored .PROCESS_EVENT_MSG (m4_of 9)
      quiet).1.buffer_counter = 2 + 1 :=
  ⟨rfl, rfl, by decide,
    (((C7_m2_and_m4_processed_in_any_state default_build sha_fix two_stored peer_a (m4_of 9)
      (m4_of 9) 4 quiet).2.2.2.2 rfl rfl).2.2.1 (by decide)).2⟩

/-- Claim C8, refuted as stated: an M4 and an M2 that are each 2 bytes shorter than their
shape are accepted by the callback, which posts an event and overwrites `msg_buffer`. -/
theorem C8_short_datagrams_are_posted :
    2 < shape_size .MSG_TYPE_M4 ∧
    (udp_rx_callback (run default_build sha_fix boot [.poll quiet]) peer_a (m4_of 9) 2
      (m4_of 9)).posted = 1 ∧
    (run default_build sha_fix boot [.poll quiet]).posted = 0 ∧
    (udp_rx_callback (run default_build sha_fix boot [.poll quiet]) peer_a (m4_of 9) 2
      (m4_of 9)).msg_buffer ≠ (run default_build sha_fix boot [.poll quiet]).msg_buffer ∧
    66 < shape_size .MSG_TYPE_M2 ∧
    (udp_rx_callback (run default_build sha_fix boot [.poll quiet]) peer_a
      (m2_of (List.replicate 8 5)) 66 (m2_of (List.replicate 8 5))).posted = 1 := by
  decide

/-- Claim C8, amended: the receive path never reads `datalen`. The callback treats a
datagram of any length as it treats one of any other length: an M2 or an M4 is always
copied to `msg_buffer` and posted, a READY is accepted exactly when `tx_free` is true, and
only a datagram whose type is none of these is dropped without an event and without a
change of state. -/
theorem C8_datalen_is_never_read (s : State) (sender_addr : uip_ipaddr_t)
    (data behind : msg_view) (datalen datalen2 : Nat) :
    udp_rx_callback s sender_addr data datalen behind
      = udp_rx_callback s sender_addr data datalen2 behind ∧
    (data.type = .MSG_TYPE_M2 ∨ data.type = .MSG_TYPE_M4 →
      (udp_rx_callback s sender_addr data datalen behind).posted = s.posted + 1 ∧
      (udp_rx_callback s sender_addr data datalen behind).msg_buffer.type = data.type) ∧
    (data.type = .MSG_TYPE_READY → s.tx_free = true →
      (udp_rx_callback s sender_addr data datalen behind).posted = s.posted + 1 ∧
      (udp_rx_callback s sender_addr data datalen behind).tx_free = false ∧
      (udp_rx_callback s sender_addr data datalen behind).dest_iot_node = sender_addr) ∧
    (data.type ≠ .MSG_TYPE_READY → data.type ≠ .MSG_TYPE_M2 → data.type ≠ .MSG_TYPE_M4 →
      udp_rx_callback s sender_addr data datalen behind = s) := by
  refine ⟨rfl, ?_, ?_, ?_⟩
  · rintro (h | h) <;> simp [udp_rx_callback, h]
  · intro h1 h2
    simp [udp_rx_callback, h1, h2]
  · intro h1 h2 h3
    unfold udp_rx_callback
    split <;> simp_all

/-- Claim C8, amended, at an M4 of 2 bytes and an M4 of 4 bytes. -/
theorem C8_datalen_is_never_read_witness :
    (m4_of 9).type = .MSG_TYPE_M4 ∧
    udp_rx_callback two_stored peer_a (m4_of 9) 2 (m4_of 9)
      = udp_rx_callback two_stored peer_a (m4_of 9) 4 (m4_of 9) ∧
    (udp_rx_callback two_stored peer_a (m4_of 9) 2 (m4_of 9)).posted = 0 + 1 :=
  ⟨rfl, (C8_datalen_is_never_read two_stored peer_a (m4_of 9) (m4_of 9) 2 4).1,
    ((C8_datalen_is_never_read two_stored peer_a (m4_of 9) (m4_of 9) 2 4).2.1
      (Or.inr rfl)).1⟩

/-! ## Reachable states -/

theorem udp_rx_callback_buffer_counter (s : State) (sender_addr : uip_ipaddr_t)
    (data behind : msg_view) (datalen : Nat) :
    (udp_rx_callback s sender_addr data datalen behind).buffer_counter = s.buffer_counter := by
  unfold udp_rx_callback
  split
  · split <;> rfl
  all_goals rfl

theorem spawn_sign_buffer_counter (s : State) (o : Sched) :
    (spawn_sign s o).1.buffer_counter = s.buffer_counter := by
  unfold spawn_sign
  split <;> rfl

theorem on_m4_buffer_counter_le (sha : Sha256) (s : State) (data : msg_view) (o : Sched)
    (h : s.buffer_counter ≤ MAX_TXS) : (on_m4 sha s data o).1.buffer_counter ≤ MAX_TXS := by
  by_cases hlt : s.buffer_counter < MAX_TXS
  · rw [(on_m4_room sha s data o hlt).2.1]; omega
  · rw [(on_m4_full sha s data o hlt).2.1]; exact h

theorem on_timer_buffer_counter_le (s : State) (o : Sched) :
    (on_timer default_build s o).1.buffer_counter ≤ s.buffer_counter := by
  have hg : guard_expired default_build o = false := rfl
  simp only [on_timer, guards_idle default_build _ o hg, upload_reset]
  split
  · simp
  · rw [(hello_tick_buffer s o).2]

theorem process_thread_buffer_counter_le (sha : Sha256) (s : State) (ev : process_event)
    (data : msg_view) (o : Sched) (h : s.buffer_counter ≤ MAX_TXS) :
    (process_thread default_build sha s ev data o).1.buffer_counter ≤ MAX_TXS := by
  unfold process_thread
  simp only
  split
  · exact h
  · rw [spawn_sign_buffer_counter]; exact h
  · split
    · split
      · simp only [on_ready]; rw [spawn_sign_buffer_counter]; exact h
      · exact h
      · exact on_m4_buffer_counter_le sha _ data o h
      · exact h
    · exact Nat.le_trans (on_timer_buffer_counter_le _ o) h
    · exact h

/-- In the build of the source, which defines neither `ABORT_SUB_PROTOCOL` nor
`RESOLVE_PROTOCOL`, a step keeps `buffer_counter` within the capacity. -/
theorem step_buffer_counter_le (sha : Sha256) (s : State) (i : Input)
    (h : s.buffer_counter ≤ MAX_TXS) :
    (step default_build sha s i).1.buffer_counter ≤ MAX_TXS := by
  cases i with
  | rx sender_addr data datalen behind =>
    simp only [step]
    split
    · exact h
    · rw [udp_rx_callback_buffer_counter]; exact h
  | msg o =>
    simp only [step]
    split
    · exact process_thread_buffer_counter_le sha _ _ _ o h
    · exact h
  | timer o => exact process_thread_buffer_counter_le sha s _ _ o h
  | poll o => exact process_thread_buffer_counter_le sha s _ _ o h

/-- In the build of the source every state reachable from the initial state has
`buffer_counter ≤ MAX_TXS`. -/
theorem default_build_buffer_counter_le (sha : Sha256) (inputs : List Input) :
    (run default_build sha boot inputs).buffer_counter ≤ MAX_TXS := by
  suffices h : ∀ (is : List Input) (s : State), s.buffer_counter ≤ MAX_TXS →
      (run default_build sha s is).buffer_counter ≤ MAX_TXS from
    h inputs boot (by decide)
  intro is
  induction is with
  | nil => intro s hs; exact hs
  | cons i rest ih =>
    intro s hs
    exact ih _ (step_buffer_counter_le sha s i hs)

set_option maxRecDepth 1000000 in
/-- Claim C2, evaluated where the code breaks it. In the build of the source, where M4
completion is the only path that appends, `buffer_counter ≤ MAX_TXS` in every reachable
state. In a build with `ABORT_SUB_PROTOCOL`, after thirty complete handshakes have filled
the buffer, a thirty-first READY is accepted, M1 is sent and the abort deadline expires:
the abort block stores the record at index 30, outside the array, and `buffer_counter`
becomes 31, above `MAX_TXS`. The same happens with the resolve deadline in a build with
`RESOLVE_PROTOCOL`. -/
theorem C2_guard_deadlines_write_past_the_buffer :
    (∀ (sha : Sha256) (inputs : List Input),
      (run default_build sha boot inputs).buffer_counter ≤ MAX_TXS) ∧
    (run ⟨true, false⟩ sha_fix boot thirty_handshakes).buffer_counter = MAX_TXS ∧
    (run ⟨true, false⟩ sha_fix boot
      (thirty_handshakes ++ opening peer_a 0x4321 ++ [.timer abort_due])).buffer_counter = 31 ∧
    ((run ⟨true, false⟩ sha_fix boot
      (thirty_handshakes ++ opening peer_a 0x4321 ++ [.timer abort_due])).buffer 30).status
        = .STATUS_ABORT ∧
    (run ⟨false, true⟩ sha_fix boot
      (thirty_handshakes ++ opening peer_a 0x4321 ++ [.timer resolve_due])).buffer_counter = 31 ∧
    ((run ⟨false, true⟩ sha_fix boot
      (thirty_handshakes ++ opening peer_a 0x4321 ++ [.timer resolve_due])).buffer 30).status
        = .STATUS_RESOLVE ∧
    ¬ 31 ≤ MAX_TXS := by
  refine ⟨default_build_buffer_counter_le, ?_⟩
  decide

theorem process_thread_frees (cfg : Config) (sha : Sha256) (s : State) (ev : process_event)
    (data : msg_view) (o : Sched) : (process_thread cfg sha s ev data o).1.tx_free = true := by
  unfold process_thread
  simp only
  split
  · rfl
  · unfold spawn_sign; split <;> rfl
  · split
    · split
      · unfold on_ready spawn_sign; split <;> rfl
      · rfl
      · exact (on_m4_session sha _ data o).1
      · rfl
    · simp only [on_timer, resolve_tick, abort_tick, upload_reset, hello_tick]
      split <;> split <;> split <;> split <;> rfl
    · rfl

/-- Claim C1, evaluated where the code breaks it. The callback ignores a READY while
`tx_free` is false, but every scheduling of the process thread sets `tx_free` to true
again. A READY from `peer_a` is accepted (`tx_free` becomes false) and its event is
handled: the thread draws the nonce 0x1234 and blocks in the spawn of the signing thread
with `tx_free` true. No terminal transition has happened, yet a READY from `peer_b` is
now accepted: it replaces the saved peer address and posts an event, M1 then goes to
`peer_b`, and when the posted event is handled the record counter becomes 2 and the nonce
is drawn again, while no record has been appended. -/
theorem C1_second_ready_accepted_after_scheduling :
    (∀ (s : State) (sender_addr : uip_ipaddr_t) (data behind : msg_view) (datalen : Nat),
      data.type = .MSG_TYPE_READY → s.tx_free = false →
        udp_rx_callback s sender_addr data datalen behind = s) ∧
    (∀ (cfg : Config) (sha : Sha256) (s : State) (ev : process_event) (data : msg_view)
      (o : Sched), (process_thread cfg sha s ev data o).1.tx_free = true) ∧
    (run default_build sha_fix boot
      [.poll quiet, .rx peer_a ready_view 1 ready_view]).tx_free = false ∧
    first_session.resume = .sign ∧
    first_session.tx_free = true ∧
    first_session.dest_iot_node = peer_a ∧
    first_session.record_counter = 1 ∧
    first_session.nonce = 0x1234 ∧
    (step default_build sha_fix first_session
      (.rx peer_b ready_view 1 ready_view)).1.dest_iot_node = peer_b ∧
    (step default_build sha_fix first_session
      (.rx peer_b ready_view 1 ready_view)).1.posted = 1 ∧
    (step default_build sha_fix
      (run default_build sha_fix first_session [.rx peer_b ready_view 1 ready_view])
      (.poll sign_ends)).2.sent.map dest_of = [peer_b] ∧
    (run default_build sha_fix first_session
      [.rx peer_b ready_view 1 ready_view, .poll sign_ends,
        .msg (draw 0x4321)]).record_counter = 2 ∧
    (run default_build sha_fix first_session
      [.rx peer_b ready_view 1 ready_view, .poll sign_ends,
        .msg (draw 0x4321)]).nonce = 0x4321 ∧
    (run default_build sha_fix first_session
      [.rx peer_b ready_view 1 ready_view, .poll sign_ends,
        .msg (draw 0x4321)]).buffer_counter = 0 := by
  refine ⟨?_, process_thread_frees, ?_⟩
  · intro s sender_addr data behind datalen h1 h2
    simp [udp_rx_callback, h1, h2]
  · decide

/-! ## The nonce check -/

theorem nonce_check_reads_nonce_r (digest : List Nat) (r : msg_record) (tail : List Nat)
    (h : nonce_check digest r tail = true) :
    (word_bytes digest).take 2 = short_bytes r.nonce_r := by
  unfold nonce_check at h
  have h2 := of_decide_eq_true h
  rw [h2]
  simp [short_bytes, List.take_take]

theorem m4_verdict (cfg : Config) (sha : Sha256) (s : State) (o : Sched)
    (hpost : 0 < s.posted) (hres : s.resume = .wait_event)
    (hty : s.msg_buffer.type = .MSG_TYPE_M4) :
    (step cfg sha s (.msg o)).2.nonce_ok
      = some (nonce_check (ByteSwap (sha.of_nonce s.msg_buffer.nonce)) s.complete_rec
          o.after_nonce_r) := by
  simp [step, hpost, process_thread, hres, hty, on_m4, silent]

/-- Claim C10, evaluated where the code breaks it. At the end of a first handshake the
stored `m2.hash_nonce_r` equals the byte-swapped digest of the nonce 9 that the M4
carries, so the claim calls for "NonceR hash OK"; the handler reports a mismatch, whatever
the memory behind `nonce_r` holds. In every state, for a given content of that memory,
the verdict is the same for every stored `m2`, and a match is reported only if the digest
starts with the two bytes of the field `complete_rec.nonce_r`, which still holds the nonce
of the previous record. -/
theorem C10_check_compares_with_nonce_r_field :
    m4_posted.msg_buffer.type = .MSG_TYPE_M4 ∧
    m4_posted.msg_buffer.nonce = 9 ∧
    ByteSwap (sha_fix.of_nonce 9) = m4_posted.complete_rec.m2.hash_nonce_r ∧
    (∀ tail, (step default_build sha_fix m4_posted
      (.msg { quiet with after_nonce_r := tail })).2.nonce_ok = some false) ∧
    (∀ (sha : Sha256) (s : State) (data : msg_view) (o : Sched) (m2 : msg_m2),
      (on_m4 sha { s with complete_rec := { s.complete_rec with m2 := m2 } } data o).2.nonce_ok
        = (on_m4 sha s data o).2.nonce_ok) ∧
    (∀ (sha : Sha256) (s : State) (data : msg_view) (o : Sched),
      (on_m4 sha s data o).2.nonce_ok = some true →
        (word_bytes (ByteSwap (sha.of_nonce data.nonce))).take 2
          = short_bytes s.complete_rec.nonce_r) := by
  refine ⟨by decide, by decide, by decide, ?_, ?_, ?_⟩
  · intro tail
    rw [m4_verdict default_build sha_fix m4_posted _ (by decide) (by decide) (by decide)]
    cases hc : nonce_check (ByteSwap (sha_fix.of_nonce m4_posted.msg_buffer.nonce))
        m4_posted.complete_rec tail with
    | false => rfl
    | true =>
      have h := nonce_check_reads_nonce_r _ _ _ hc
      exact absurd h (by decide)
  · intro sha s data o m2
    rfl
  · intro sha s data o h
    have h2 : nonce_check (ByteSwap (sha.of_nonce data.nonce)) s.complete_rec o.after_nonce_r
        = true := by
      simpa [on_m4, silent] using h
    exact nonce_check_reads_nonce_r _ _ _ h2

end IoTLogBlock
